import Mathlib

/-
Verification development for the cvision repository: a shallow embedding of the
frame-sampling engine (cvision/video/video_reader.py, cvision/video/video.py,
cvision/io/video.py, cvision/io/video_reader.py, cvision/video/video_meta.py)
together with proofs about its stated properties.

Numbers: Python floats (frame rate, interval) are modelled as rationals; Python
`int()` is truncation toward zero.  Errors: Python exceptions are modelled by
`Except CvError`.  The decoding backend handle (cv2.VideoCapture) is modelled by
`Cap`: the list of actually decodable frames, a cursor, and an open flag.
-/

namespace CVision

/-- Python `int()` applied to a number: truncation toward zero (the numerator
divided by the denominator with truncating integer division). -/
def pyInt (q : ℚ) : ℤ := q.num.tdiv (q.den : ℤ)

/-- A decoded video frame, abstracted to its pixel content. -/
abbrev Frame := ℕ

/-- Error kinds raised by the Python code.  `invalidFrameRate` is the error kind
named by the specification; it is listed here so that statements can refer to it. -/
inductive CvError where
  | fileNotFound
  | typeError
  | valueError
  | invalidFrameRate
  deriving DecidableEq

/-- Model of a cv2.VideoCapture handle: the decodable frames of the file, the
current frame position, and whether the handle is open. -/
structure Cap where
  frames : List Frame
  pos : ℕ
  opened : Bool
  deriving DecidableEq

/-- Model of `cap.read()`: return the frame at the current position and advance by
one; on failure (past the end of the decodable frames) return no frame and leave
the position unchanged. -/
def Cap.read (c : Cap) : Option Frame × Cap :=
  match c.frames[c.pos]? with
  | some f => (some f, { c with pos := c.pos + 1 })
  | none => (none, c)

/-- Model of `cap.set(cv2.CAP_PROP_POS_FRAMES, i)`. -/
def Cap.setPos (c : Cap) (i : ℤ) : Cap := { c with pos := i.toNat }

/-- Model of `cap.release()`. -/
def Cap.release (c : Cap) : Cap := { c with opened := false }

/-- Python `range(start, stop, step)` as a list of integers; `step = 0` raises
ValueError. -/
def pyRange (start stop step : ℤ) : Except CvError (List ℤ) :=
  if step = 0 then .error .valueError
  else if 0 < step then
    .ok ((List.range ((stop - start + step - 1).ediv step).toNat).map
      (fun k : ℕ => start + (k : ℤ) * step))
  else
    .ok ((List.range ((start - stop - step - 1).ediv (-step)).toNat).map
      (fun k : ℕ => start + (k : ℤ) * step))

/-- Metadata queried once from the backend (video_meta.py).  `duration` is
`frame_count / fps`; the Lean convention `x / 0 = 0` stands in for Python's
ZeroDivisionError there (no claim depends on `duration`). -/
structure VideoMetaData where
  fps : ℚ
  frame_count : ℤ
  duration : ℚ
  format : ℚ
  fourcc : ℤ
  width : ℤ
  height : ℤ
  deriving DecidableEq

/-- The video/video_reader.py VideoReader: path, interval (Python None modelled as
`none`), start_time, and the metadata fetched at construction. -/
structure VideoReader where
  path : String
  interval : Option ℚ
  start_time : ℚ
  metadata : VideoMetaData
  deriving DecidableEq

/-- Model of video/video_reader.py `VideoReader.__init__`: no existence check is
performed; the metadata fetch contacts the backend unconditionally.  The returned
Bool records that a backend call was made. -/
def VideoReader.init (bm : String → VideoMetaData) (path : String)
    (interval : Option ℚ) (start_time : ℚ) : VideoReader × Bool :=
  ({ path := path, interval := interval, start_time := start_time,
     metadata := bm path }, true)

/-- Model of `VideoReader.get_steps`: `int(self.interval * self.metadata.fps)`.
When `interval` is Python None the multiplication raises TypeError. -/
def VideoReader.get_steps (r : VideoReader) : Except CvError ℤ :=
  match r.interval with
  | none => .error .typeError
  | some i => .ok (pyInt (i * r.metadata.fps))

/-- Body of the batch-extraction loop shared by both extract_frames variants:
seek to each candidate index, read, stop at the first failed read and return the
frames collected so far (most recent last). -/
def extractLoop (cap : Cap) (ids : List ℤ) (acc : List Frame) : List Frame × Cap :=
  match ids with
  | [] => (acc.reverse, cap)
  | id :: rest =>
    match (cap.setPos id).read with
    | (none, c) => (acc.reverse, c)
    | (some f, c) => extractLoop c rest (f :: acc)

/-- Model of video/video_reader.py `VideoReader.extract_frames`: compute the step
via `get_steps`, iterate `range(0, frame_count, steps)` seeking and reading,
release the capture, and return the collected frames. -/
def VideoReader.extract_frames (r : VideoReader) (cap : Cap) :
    Except CvError (List Frame × Cap) :=
  match r.get_steps with
  | .error e => .error e
  | .ok steps =>
    match pyRange 0 r.metadata.frame_count steps with
    | .error e => .error e
    | .ok ids =>
      let p := extractLoop cap ids []
      .ok (p.1, p.2.release)

/-- One pull of the generator of video/video_reader.py.  On the first pull the
loop checks `isOpened` and reads at the current position.  On a later pull the
code resumed after `yield` first seeks forward by the freshly computed step when
an interval is configured (no seek when the interval is Python None), then
re-checks `isOpened` and reads. -/
def generatorPull (r : VideoReader) (first : Bool) (cap : Cap) : Option Frame × Cap :=
  let cap1 :=
    if first then cap
    else
      match r.interval with
      | none => cap
      | some i => cap.setPos ((cap.pos : ℤ) + pyInt (i * r.metadata.fps))
  if cap1.opened then cap1.read else (none, cap1)

/-- Fuel-bounded run of the generator collecting every yielded frame; `none`
means the fuel was exhausted while the source loop would still be running. -/
def generatorRunAux (r : VideoReader) : ℕ → Bool → Cap → Option (List Frame × Cap)
  | 0, _, _ => none
  | fuel + 1, first, cap =>
    match generatorPull r first cap with
    | (none, c) => some ([], c)
    | (some f, c) =>
      match generatorRunAux r fuel false c with
      | none => none
      | some (fs, c2) => some (f :: fs, c2)

/-- A complete run of the generator starting from the first pull. -/
def generatorRun (r : VideoReader) (fuel : ℕ) (cap : Cap) :
    Option (List Frame × Cap) :=
  generatorRunAux r fuel true cap

/-- Model of `VideoReader.__enter__`: open a capture on the file's frames and,
when `start_time > 0`, seek by `start_time * 1000` milliseconds (the backend
lands on the corresponding frame index `int(start_time * fps)`). -/
def VideoReader.enter (r : VideoReader) (content : List Frame) : Cap :=
  let cap : Cap := { frames := content, pos := 0, opened := true }
  if 0 < r.start_time then
    { cap with pos := (pyInt (r.start_time * r.metadata.fps)).toNat }
  else cap

/-- Model of `VideoReader.__exit__`: always release the capture; the method
returns Python None (falsy), so a pending exception is re-raised to the caller
after the release. -/
def VideoReader.exit (cap : Cap) (exc : Option CvError) : Cap × Option CvError :=
  (cap.release, exc)

/-- A `with VideoReader(...) as r:` block around a body that may raise: enter,
run the body, then exit — the capture is released on every path and the body's
outcome (value or error) is returned unchanged. -/
def withReader {α : Type} (r : VideoReader) (content : List Frame)
    (body : VideoReader → Cap → Except CvError α × Cap) : Except CvError α × Cap :=
  let cap := r.enter content
  let res := body r cap
  (res.1, res.2.release)

/-- Model of io/video.py `Video._get_steps`: 1 for Python None, otherwise
`int(stepsize * fps)`. -/
def IoVideo.get_steps (fps : ℚ) (stepsize : Option ℚ) : ℤ :=
  match stepsize with
  | none => 1
  | some s => pyInt (s * fps)

/-- Model of io/video.py `Video.__init__`: the existence check comes first — a
missing path raises RuntimeError (modelled as `fileNotFound`) before any backend
call; otherwise the metadata fetch contacts the backend.  The returned Bool
records whether the backend was contacted. -/
def IoVideo.init (fs : String → Bool) (bm : String → VideoMetaData)
    (path : String) : Except CvError VideoMetaData × Bool :=
  if fs path then (.ok (bm path), true) else (.error .fileNotFound, false)

/-- Model of io/video.py `Video.extract_frames`: batch extraction with the io
step rule (`_get_steps`); the capture is not released inside the loop (the
enclosing with-block releases it). -/
def IoVideo.extract_frames (fps : ℚ) (frame_count : ℤ) (stepsize : Option ℚ)
    (cap : Cap) : Except CvError (List Frame × Cap) :=
  match pyRange 0 frame_count (IoVideo.get_steps fps stepsize) with
  | .error e => .error e
  | .ok ids => .ok (extractLoop cap ids [])

/-- Outcome of a Python `__next__` call: a yielded value, a StopIteration signal
ending the iteration, or — when the method body simply falls off its end — the
Python value None returned as an ordinary item. -/
inductive PyIterResult where
  | yield (f : Frame)
  | stopIteration
  | retNone
  deriving DecidableEq

/-- Model of io/video_reader.py `VideoReader.__next__`: return the frame when the
read succeeds; otherwise control falls off the end of the method, which in Python
returns None — no StopIteration is raised. -/
def IoVideoReader.next (cap : Cap) : PyIterResult × Cap :=
  match cap.read with
  | (some f, c) => (.yield f, c)
  | (none, c) => (.retNone, c)

/-- A file name `outputDir/<index>.<imageFormat>`, modelled structurally. -/
structure FileName where
  dir : String
  index : ℕ
  ext : String
  deriving DecidableEq

/-- The file system visible to save_frames: the known directories and the file
contents. -/
structure FS where
  dirs : List String
  files : FileName → Option Frame

/-- Model of `Path(output_dir).mkdir(parents=True, exist_ok=True)`: idempotent
directory creation that never touches file contents (parent creation collapsed
into the single entry). -/
def FS.mkdirAll (fs : FS) (dir : String) : FS :=
  { fs with dirs := if dir ∈ fs.dirs then fs.dirs else dir :: fs.dirs }

/-- Writing pulled frames in pull order: frame number `i` of the run goes to
`dir/(idx+i).ext`, overwriting whatever was stored under that name. -/
def writeLoop (dir ext : String) (idx : ℕ) (ys : List Frame)
    (files : FileName → Option Frame) : FileName → Option Frame :=
  match ys with
  | [] => files
  | f :: rest =>
    writeLoop dir ext (idx + 1) rest
      (fun q => if q = ⟨dir, idx, ext⟩ then some f else files q)

/-- The collection-level Video of video/video.py: an ordered list of paths. -/
structure Video where
  paths : List String

/-- The constructor argument of the collection-level Video: a single str/Path or
a list of them. -/
inductive PathsArg where
  | one (p : String)
  | many (ps : List String)

/-- Model of video/video.py `Video.__init__`: a single path is wrapped into a
one-element list, so the `paths` attribute is always a list. -/
def Video.mk' (a : PathsArg) : Video :=
  match a with
  | .one p => { paths := [p] }
  | .many ps => { paths := ps }

/-- Per-path loop of video/video.py `Video.save_frames`: for each path open a
reader (default start_time 0), pull every frame through the generator, and write
them under indices 0, 1, 2, ... for that path. -/
def goSave (bm : String → VideoMetaData) (content : String → List Frame)
    (interval : Option ℚ) (dir fmt : String) :
    List String → FS → Option FS
  | [], fs => some fs
  | p :: ps, fs =>
    match generatorRun ((VideoReader.init bm p interval 0).1)
        ((content p).length + 1)
        (((VideoReader.init bm p interval 0).1).enter (content p)) with
    | none => none
    | some (ys, _) =>
      goSave bm content interval dir fmt ps
        { fs with files := writeLoop dir fmt 0 ys fs.files }

/-- Model of video/video.py `Video.save_frames`: create the output directory
(recursively, tolerating existence), then process every path in order. -/
def Video.save_frames (v : Video) (bm : String → VideoMetaData)
    (content : String → List Frame) (dir : String) (interval : Option ℚ)
    (fmt : String) (fs : FS) : Option FS :=
  goSave bm content interval dir fmt v.paths (fs.mkdirAll dir)

/-- Per-path loop of video/video.py `Video.extract_frames`: each path is handled
in its own with-block whose body performs batch extraction. -/
def goExtract (bm : String → VideoMetaData) (content : String → List Frame)
    (interval : Option ℚ) :
    List String → Except CvError (List (String × List Frame))
  | [] => .ok []
  | p :: ps =>
    let r := (VideoReader.init bm p interval 0).1
    let w := withReader r (content p) (fun rr cap =>
      match rr.extract_frames cap with
      | .ok pr => (.ok pr.1, pr.2)
      | .error e => (.error e, cap))
    match w.1 with
    | .error e => .error e
    | .ok fsr =>
      match goExtract bm content interval ps with
      | .error e => .error e
      | .ok rest => .ok ((p, fsr) :: rest)

/-- Model of video/video.py `Video.extract_frames`. -/
def Video.extract_frames (v : Video) (bm : String → VideoMetaData)
    (content : String → List Frame) (interval : Option ℚ) :
    Except CvError (List (String × List Frame)) :=
  goExtract bm content interval v.paths

/-! Basic behaviour of the backend model. -/

instance exceptDecEq {ε α : Type} [DecidableEq ε] [DecidableEq α] :
    DecidableEq (Except ε α)
  | .ok a, .ok b => decidable_of_iff (a = b) (by simp)
  | .ok _, .error _ => .isFalse (by simp)
  | .error _, .ok _ => .isFalse (by simp)
  | .error a, .error b => decidable_of_iff (a = b) (by simp)

lemma Cap.read_of_lt {c : Cap} (h : c.pos < c.frames.length) :
    c.read = (some (c.frames.getD c.pos 0), { c with pos := c.pos + 1 }) := by
  simp [Cap.read, List.getElem?_eq_getElem h, List.getD_eq_getElem c.frames 0 h]

lemma Cap.read_of_ge {c : Cap} (h : c.frames.length ≤ c.pos) :
    c.read = (none, c) := by
  simp [Cap.read, List.getElem?_eq_none h]

/-- On a nonnegative number, Python truncation agrees with the floor. -/
lemma pyInt_eq_floor {q : ℚ} (h : 0 ≤ q) : pyInt q = ⌊q⌋ := by
  rw [pyInt, Rat.floor_def, Int.tdiv_eq_ediv (Rat.num_nonneg.mpr h) (by positivity)]

/-! Properties of the extraction loop, the generator run and `pyRange`. -/

lemma intEdiv_eq_div (a b : ℤ) : a.ediv b = a / b := rfl

lemma extractLoop_ok (ids : List ℤ) :
    ∀ (cap : Cap) (acc : List Frame),
      (∀ id ∈ ids, id.toNat < cap.frames.length) →
      ∃ c : Cap,
        extractLoop cap ids acc
          = (acc.reverse ++ ids.map (fun id => cap.frames.getD id.toNat 0), c) ∧
        c.frames = cap.frames ∧ c.opened = cap.opened := by
  induction ids with
  | nil =>
    intro cap acc _
    exact ⟨cap, by simp [extractLoop], rfl, rfl⟩
  | cons id rest ih =>
    intro cap acc h
    have hid : id.toNat < cap.frames.length := h id (List.mem_cons_self id rest)
    have hlt : (cap.setPos id).pos < (cap.setPos id).frames.length := by
      simpa [Cap.setPos] using hid
    obtain ⟨c, hc, hcf, hco⟩ :=
      ih { cap with pos := id.toNat + 1 } (cap.frames.getD id.toNat 0 :: acc)
        (by intro x hx; exact h x (List.mem_cons_of_mem _ hx))
    refine ⟨c, ?_, by simpa using hcf, by simpa using hco⟩
    rw [extractLoop, Cap.read_of_lt hlt]
    simp only [Cap.setPos] at hc ⊢
    rw [hc]
    simp

lemma generatorRunAux_none (r : VideoReader) (hint : r.interval = none) :
    ∀ (fuel : ℕ) (b : Bool) (cap : Cap), cap.opened = true →
      cap.frames.length - cap.pos < fuel →
      ∃ c : Cap, generatorRunAux r fuel b cap = some (cap.frames.drop cap.pos, c) := by
  intro fuel
  induction fuel with
  | zero => intro b cap _ h; omega
  | succ n ih =>
    intro b cap hop hfuel
    have hpull : generatorPull r b cap = cap.read := by
      cases b <;> simp [generatorPull, hint, hop]
    by_cases hpos : cap.pos < cap.frames.length
    · obtain ⟨c, hc⟩ := ih false { cap with pos := cap.pos + 1 } hop
        (by change cap.frames.length - (cap.pos + 1) < n; omega)
      refine ⟨c, ?_⟩
      rw [generatorRunAux, hpull, Cap.read_of_lt hpos]
      have hd : cap.frames.drop cap.pos
          = cap.frames.getD cap.pos 0 :: cap.frames.drop (cap.pos + 1) := by
        rw [List.drop_eq_getElem_cons hpos, List.getD_eq_getElem cap.frames 0 hpos]
      rw [hd]
      simp only []
      rw [hc]
    · push_neg at hpos
      refine ⟨cap, ?_⟩
      rw [generatorRunAux, hpull, Cap.read_of_ge hpos]
      simp [List.drop_eq_nil_of_le hpos]

lemma map_getD_range (l : List Frame) (n : ℕ) (h : n ≤ l.length) :
    (List.range n).map (fun k => l.getD k 0) = l.take n := by
  apply List.ext_getElem
  · simp [h]
  · intro i h1 h2
    have hi : i < n := by simpa using h1
    have hil : i < l.length := lt_of_lt_of_le hi h
    simp [List.getElem_take, List.getD_eq_getElem l 0 hil,
      List.getElem?_eq_getElem hil]

lemma div_le_ceil (n s : ℤ) (hs : 0 < s) :
    (n + s - 1) / s ≤ ⌈(n : ℚ) / (s : ℚ)⌉ := by
  have hsq : (0 : ℚ) < (s : ℚ) := by exact_mod_cast hs
  have h1 : (n : ℚ) / s ≤ (⌈(n : ℚ) / s⌉ : ℚ) := Int.le_ceil _
  have h2 : (n : ℚ) ≤ (⌈(n : ℚ) / s⌉ : ℚ) * s := (div_le_iff₀ hsq).mp h1
  have h3 : n ≤ ⌈(n : ℚ) / s⌉ * s := by exact_mod_cast h2
  have h4 : n + s - 1 ≤ (s - 1) + ⌈(n : ℚ) / s⌉ * s := by linarith
  calc (n + s - 1) / s
      ≤ ((s - 1) + ⌈(n : ℚ) / s⌉ * s) / s := Int.ediv_le_ediv hs h4
    _ = (s - 1) / s + ⌈(n : ℚ) / s⌉ := Int.add_mul_ediv_right _ _ (ne_of_gt hs)
    _ = ⌈(n : ℚ) / s⌉ := by
        rw [Int.ediv_eq_zero_of_lt (by omega) (by omega)]
        ring

lemma pyRange_zero_pos (n s : ℤ) (hs : 0 < s) :
    pyRange 0 n s
      = .ok ((List.range ((n + s - 1) / s).toNat).map (fun k : ℕ => (k : ℤ) * s)) := by
  have h0 : ¬ s = 0 := by omega
  simp only [pyRange, if_neg h0, if_pos hs, intEdiv_eq_div]
  rw [show n - 0 + s - 1 = n + s - 1 by ring]
  simp only [zero_add]

lemma pyRange_zero_stop (s : ℤ) (hs : 0 < s) : pyRange 0 0 s = .ok [] := by
  rw [pyRange_zero_pos 0 s hs,
    show (0 : ℤ) + s - 1 = s - 1 by ring,
    Int.ediv_eq_zero_of_lt (by omega) (by omega)]
  simp

lemma pyRange_mem_bounds (n s : ℤ) (hs : 0 < s) (ids : List ℤ)
    (hids : pyRange 0 n s = .ok ids) :
    ∀ id ∈ ids, 0 ≤ id ∧ id < n := by
  rw [pyRange_zero_pos n s hs] at hids
  obtain rfl : _ = ids := Except.ok.inj hids
  intro id hid
  simp only [List.mem_map, List.mem_range] at hid
  obtain ⟨k, hk, rfl⟩ := hid
  have hk' : (k : ℤ) < (n + s - 1) / s := by omega
  have hdm := Int.ediv_add_emod (n + s - 1) s
  have hm0 := Int.emod_nonneg (n + s - 1) (ne_of_gt hs)
  have h4 : (k : ℤ) ≤ (n + s - 1) / s - 1 := by omega
  have h5 : (k : ℤ) * s ≤ ((n + s - 1) / s - 1) * s :=
    mul_le_mul_of_nonneg_right h4 (le_of_lt hs)
  have h6 : ((n + s - 1) / s - 1) * s = ((n + s - 1) / s) * s - s := by ring
  have hcomm : ((n + s - 1) / s) * s = s * ((n + s - 1) / s) := mul_comm _ _
  constructor
  · exact mul_nonneg (by positivity) (le_of_lt hs)
  · omega

lemma pyRange_pairwise (n s : ℤ) (hs : 0 < s) (ids : List ℤ)
    (hids : pyRange 0 n s = .ok ids) : ids.Pairwise (· < ·) := by
  rw [pyRange_zero_pos n s hs] at hids
  obtain rfl : _ = ids := Except.ok.inj hids
  refine (List.pairwise_lt_range _).map _ (fun a b hab => ?_)
  have hab' : (a : ℤ) < b := by exact_mod_cast hab
  exact mul_lt_mul_of_pos_right hab' hs

lemma pyRange_length_le_ceil (n s : ℤ) (hs : 0 < s) (ids : List ℤ)
    (hids : pyRange 0 n s = .ok ids) :
    ids.length ≤ (⌈(n : ℚ) / (s : ℚ)⌉).toNat := by
  rw [pyRange_zero_pos n s hs] at hids
  obtain rfl : _ = ids := Except.ok.inj hids
  have h1 : (n + s - 1) / s ≤ ⌈(n : ℚ) / (s : ℚ)⌉ := div_le_ceil n s hs
  simp only [List.length_map, List.length_range]
  omega

/-! Claim C1: the computed step. -/

/-- A backend whose reported frame rate is one half frame per second. -/
def rHalfFps : VideoReader := ⟨"v.mp4", some 1, 0, ⟨1/2, 10, 0, 0, 0, 0, 0⟩⟩

/-- C1 counterexample: with `frameRate = 1/2 > 0` and `intervalSeconds = 1 > 0`
both step computations return `int(1 * 0.5) = 0`, not
`max(1, floor(intervalSeconds * frameRate)) = 1` — the code has no clamp to a
minimum of 1. -/
theorem step_no_clamp_counterexample :
    VideoReader.get_steps rHalfFps = .ok 0 ∧
    IoVideo.get_steps (1/2) (some 1) = 0 ∧
    max 1 ⌊(1 : ℚ) * (1/2 : ℚ)⌋ = 1 ∧ ((0 : ℤ) ≠ 1) := by
  have hp : pyInt ((1 : ℚ) * (1/2)) = 0 := by
    rw [one_mul, pyInt_eq_floor (by norm_num)]
    exact Int.floor_eq_zero_iff.mpr (by constructor <;> norm_num)
  have hf : ⌊(1 : ℚ) * (1/2 : ℚ)⌋ = 0 := by
    rw [one_mul]
    exact Int.floor_eq_zero_iff.mpr (by constructor <;> norm_num)
  refine ⟨?_, ?_, ?_, by decide⟩
  · simp only [VideoReader.get_steps, rHalfFps, hp]
  · simp only [IoVideo.get_steps, hp]
  · rw [hf]
    decide

/-- C1 amended: for every frameRate > 0 and non-null intervalSeconds > 0, both
`VideoReader.get_steps` and `Video._get_steps` return
`floor(intervalSeconds * frameRate)` (truncation, which coincides with floor for
a positive product) with no clamping to a minimum of 1. -/
theorem step_floor_no_clamp (r : VideoReader) (i : ℚ) (hi : r.interval = some i)
    (hfps : 0 < r.metadata.fps) (hpos : 0 < i) :
    r.get_steps = .ok ⌊i * r.metadata.fps⌋ ∧
    IoVideo.get_steps r.metadata.fps (some i) = ⌊i * r.metadata.fps⌋ := by
  have h0 : (0 : ℚ) ≤ i * r.metadata.fps := le_of_lt (mul_pos hpos hfps)
  constructor
  · simp [VideoReader.get_steps, hi, pyInt_eq_floor h0]
  · simp [IoVideo.get_steps, pyInt_eq_floor h0]

/-- A reader with frame rate 2 and interval 3 seconds. -/
def rTwoFps : VideoReader := ⟨"w.mp4", some 3, 0, ⟨2, 100, 0, 0, 0, 0, 0⟩⟩

/-- Witness for the amended C1 at frameRate 2, interval 3. -/
theorem step_floor_no_clamp_witness :
    VideoReader.get_steps rTwoFps = .ok ⌊(3 : ℚ) * 2⌋ ∧
    IoVideo.get_steps 2 (some 3) = ⌊(3 : ℚ) * 2⌋ :=
  step_floor_no_clamp rTwoFps 3 rfl (by decide) (by decide)

/-! Claim C2: behaviour when the frame rate is 0. -/

/-- A 3-frame backend whose reported frame rate is 0 (Scenario E of the spec). -/
def rZeroFps : VideoReader := ⟨"v.mp4", some 1, 0, ⟨0, 3, 0, 0, 0, 0, 0⟩⟩

/-- The capture for the zero-frame-rate scenario. -/
def capZeroFps : Cap := ⟨[10, 20, 30], 0, true⟩

/-- C2 evaluation at the failing input: with frameRate 0 the computed step is 0;
batch extraction raises the generic ValueError of `range(0, n, 0)` — the code
defines no InvalidFrameRate error — and the lazy generator raises nothing at
all: its zero-step seek is a no-op, so it yields every frame sequentially and
terminates normally at end of stream. -/
theorem zero_fps_behavior :
    VideoReader.get_steps rZeroFps = .ok 0 ∧
    VideoReader.extract_frames rZeroFps capZeroFps = .error .valueError ∧
    (Except.error CvError.valueError : Except CvError (List Frame × Cap))
      ≠ .error .invalidFrameRate ∧
    generatorRun rZeroFps 5 capZeroFps
      = some ([10, 20, 30], ⟨[10, 20, 30], 3, true⟩) := by
  have hp : pyInt ((1 : ℚ) * 0) = 0 := by rw [mul_zero]; decide
  have hs : rZeroFps.get_steps = .ok 0 := by
    simp only [VideoReader.get_steps, rZeroFps, hp]
  refine ⟨hs, ?_, by decide, ?_⟩
  · simp only [VideoReader.extract_frames, hs]
    decide
  · simp only [generatorRun, generatorRunAux, generatorPull, rZeroFps, capZeroFps,
      hp, Cap.read, Cap.setPos]
    decide

/-! Claim C3: a null interval. -/

/-- A reader whose interval is Python None. -/
def rNullInterval : VideoReader := ⟨"v.mp4", none, 0, ⟨25, 10, 0, 0, 0, 0, 0⟩⟩

/-- C3 counterexample: `VideoReader.get_steps` does not return 1 for a null
interval — `None * fps` raises TypeError, and `VideoReader.extract_frames` with
a null interval therefore fails instead of visiting every frame. -/
theorem null_interval_counterexample :
    VideoReader.get_steps rNullInterval = .error .typeError ∧
    (Except.error CvError.typeError : Except CvError ℤ) ≠ .ok 1 ∧
    VideoReader.extract_frames rNullInterval ⟨[1, 2, 3], 0, true⟩
      = .error .typeError := by
  have hs : rNullInterval.get_steps = .error .typeError := by
    simp only [VideoReader.get_steps, rNullInterval]
  refine ⟨hs, by decide, ?_⟩
  simp only [VideoReader.extract_frames, hs]

/-- C3 amended: `Video._get_steps` (io) returns 1 for a null stepsize and io
batch extraction then visits every frame index `0..frameCount-1`; the lazy
generator with a null interval likewise visits every remaining frame.  (The
counterexample shows `VideoReader.get_steps` instead fails on a null interval.) -/
theorem null_interval_semantics (fps : ℚ) (fc : ℤ) (cap capg : Cap)
    (r : VideoReader) (hfc : 0 ≤ fc) (hlen : fc.toNat ≤ cap.frames.length)
    (hint : r.interval = none) (hop : capg.opened = true) :
    IoVideo.get_steps fps none = 1 ∧
    (∃ c : Cap, IoVideo.extract_frames fps fc none cap
        = .ok (cap.frames.take fc.toNat, c)) ∧
    (∃ c : Cap, generatorRun r (capg.frames.length - capg.pos + 1) capg
        = some (capg.frames.drop capg.pos, c)) := by
  refine ⟨rfl, ?_, ?_⟩
  · have hr : pyRange 0 fc 1
        = .ok ((List.range fc.toNat).map (fun k : ℕ => (k : ℤ))) := by
      rw [pyRange_zero_pos fc 1 (by omega), show fc + 1 - 1 = fc from by ring,
        Int.ediv_one]
      simp only [mul_one]
    have hin : ∀ id ∈ (List.range fc.toNat).map (fun k : ℕ => (k : ℤ)),
        id.toNat < cap.frames.length := by
      intro id hid
      simp only [List.mem_map, List.mem_range] at hid
      obtain ⟨k, hk, rfl⟩ := hid
      simpa using lt_of_lt_of_le hk hlen
    obtain ⟨c, hc, _, _⟩ := extractLoop_ok _ cap [] hin
    have hmap : List.map (fun id : ℤ => cap.frames.getD id.toNat 0)
          (List.map (fun k : ℕ => (k : ℤ)) (List.range fc.toNat))
        = cap.frames.take fc.toNat := by
      rw [List.map_map, ← map_getD_range cap.frames fc.toNat hlen]
      apply List.map_congr_left
      intro k _
      simp
    refine ⟨c, ?_⟩
    simp only [IoVideo.extract_frames, IoVideo.get_steps]
    rw [hr]
    simp only []
    rw [hc]
    simp only [List.reverse_nil, List.nil_append, hmap]
  · obtain ⟨c, hc⟩ := generatorRunAux_none r hint
      (capg.frames.length - capg.pos + 1) true capg hop (by omega)
    exact ⟨c, hc⟩

/-- A reader with a null interval at 25 fps and a 3-frame capture positioned
mid-stream. -/
def rNullGen : VideoReader := ⟨"b.mp4", none, 0, ⟨25, 4, 0, 0, 0, 0, 0⟩⟩

/-- A 4-frame capture for the io null-interval extraction. -/
def capIoNull : Cap := ⟨[7, 8, 9, 11], 0, true⟩

/-- A 3-frame capture positioned at frame 1 for the null-interval generator. -/
def capGenNull : Cap := ⟨[5, 6, 7], 1, true⟩

/-- Witness for the amended C3 at concrete captures. -/
theorem null_interval_semantics_witness :
    IoVideo.get_steps 25 none = 1 ∧
    (∃ c : Cap, IoVideo.extract_frames 25 3 none capIoNull
        = .ok (capIoNull.frames.take (3 : ℤ).toNat, c)) ∧
    (∃ c : Cap, generatorRun rNullGen
        (capGenNull.frames.length - capGenNull.pos + 1) capGenNull
        = some (capGenNull.frames.drop capGenNull.pos, c)) :=
  null_interval_semantics 25 3 capIoNull capGenNull rNullGen (by decide) (by decide)
    rfl rfl

/-! Claim C4: the candidate indices of batch extraction. -/

/-- C4: with a positive step, batch extraction attempts exactly the candidate
indices 0, step, 2*step, ... strictly below frameCount (when every read
succeeds its output is the frame at each candidate, in candidate order), the
candidate list is strictly ascending (so no index is visited twice), the output
length is at most ceil(frameCount / step), and frameCount = 0 yields an empty
output. -/
theorem batch_extraction_candidates (r : VideoReader) (cap : Cap) (steps : ℤ)
    (ids : List ℤ)
    (hfc : 0 ≤ r.metadata.frame_count)
    (hst : r.get_steps = .ok steps) (hpos : 0 < steps)
    (hids : pyRange 0 r.metadata.frame_count steps = .ok ids)
    (hreads : ∀ id ∈ ids, id.toNat < cap.frames.length) :
    (∃ c : Cap, r.extract_frames cap
        = .ok (ids.map (fun id => cap.frames.getD id.toNat 0), c)) ∧
    ids.Pairwise (· < ·) ∧
    (∀ id ∈ ids, 0 ≤ id ∧ id < r.metadata.frame_count) ∧
    (ids.map (fun id => cap.frames.getD id.toNat 0)).length
      ≤ (⌈(r.metadata.frame_count : ℚ) / (steps : ℚ)⌉).toNat ∧
    (r.metadata.frame_count = 0 →
      ids = [] ∧ r.extract_frames cap = .ok ([], cap.release)) := by
  refine ⟨?_, pyRange_pairwise _ _ hpos ids hids,
    pyRange_mem_bounds _ _ hpos ids hids, ?_, ?_⟩
  · obtain ⟨c, hc, _, _⟩ := extractLoop_ok ids cap [] hreads
    refine ⟨c.release, ?_⟩
    simp only [VideoReader.extract_frames, hst]
    rw [hids]
    simp only []
    rw [hc]
    simp
  · simpa using pyRange_length_le_ceil _ _ hpos ids hids
  · intro h0
    have h1 : pyRange 0 r.metadata.frame_count steps = .ok [] := by
      rw [h0]; exact pyRange_zero_stop steps hpos
    have hids0 : ids = [] := Except.ok.inj (hids.symm.trans h1)
    refine ⟨hids0, ?_⟩
    simp only [VideoReader.extract_frames, hst]
    rw [h1]
    simp [extractLoop]

/-- Scenario A of the spec: 30 fps, 300 frames, interval 1 second. -/
def rScenA : VideoReader := ⟨"a.mp4", some 1, 0, ⟨30, 300, 0, 0, 0, 0, 0⟩⟩

/-- The capture holding all 300 frames of Scenario A. -/
def capScenA : Cap := ⟨List.range 300, 0, true⟩

/-- The candidate indices of Scenario A. -/
def idsScenA : List ℤ := [0, 30, 60, 90, 120, 150, 180, 210, 240, 270]

set_option maxRecDepth 8000 in
/-- Witness for C4 at Scenario A (step 30, ten candidates `0,30,...,270`). -/
theorem batch_extraction_candidates_witness :
    (0 : ℤ) < 30 ∧
    ((∃ c : Cap, rScenA.extract_frames capScenA
        = .ok (idsScenA.map (fun id => capScenA.frames.getD id.toNat 0), c)) ∧
      idsScenA.Pairwise (· < ·) ∧
      (∀ id ∈ idsScenA, 0 ≤ id ∧ id < rScenA.metadata.frame_count) ∧
      (idsScenA.map (fun id => capScenA.frames.getD id.toNat 0)).length
        ≤ (⌈(rScenA.metadata.frame_count : ℚ) / ((30 : ℤ) : ℚ)⌉).toNat ∧
      (rScenA.metadata.frame_count = 0 →
        idsScenA = [] ∧ rScenA.extract_frames capScenA
          = .ok ([], capScenA.release))) := by
  have hp : pyInt ((1 : ℚ) * 30) = 30 := by rw [one_mul]; decide
  have hst : rScenA.get_steps = .ok 30 := by
    simp only [VideoReader.get_steps, rScenA, hp]
  exact ⟨by decide, batch_extraction_candidates rScenA capScenA 30 idsScenA
    (by decide) hst (by decide) (by decide) (by decide)⟩

/-! Claim C5: a failed read is natural termination. -/

/-- A 2-frame backend whose reported frame count is an optimistic 5. -/
def rShort : VideoReader := ⟨"p.mp4", some 1, 0, ⟨1, 5, 0, 0, 0, 0, 0⟩⟩

/-- The capture for the optimistic-frame-count scenario. -/
def capShort : Cap := ⟨[10, 20], 0, true⟩

/-- C5 evaluation: batch extraction does stop at the first failed read and
returns the frames collected so far with no error, and the video/ generator
ends there too; but io/video_reader.py `__next__` falls off its end when the
read fails, returning Python None as an ordinary item instead of signalling
StopIteration — the lazy iteration of the io reader never ends. -/
theorem failed_read_semantics :
    VideoReader.extract_frames rShort capShort
      = .ok ([10, 20], ⟨[10, 20], 2, false⟩) ∧
    generatorRun rShort 4 capShort = some ([10], ⟨[10, 20], 2, true⟩) ∧
    (IoVideoReader.next ⟨[], 0, true⟩).1 = PyIterResult.retNone ∧
    PyIterResult.retNone ≠ PyIterResult.stopIteration := by
  have hp : pyInt ((1 : ℚ) * 1) = 1 := by rw [mul_one]; decide
  have hs : rShort.get_steps = .ok 1 := by
    simp only [VideoReader.get_steps, rShort, hp]
  refine ⟨?_, ?_, by decide, by decide⟩
  · simp only [VideoReader.extract_frames, hs]
    decide
  · simp only [generatorRun, generatorRunAux, generatorPull, rShort, capShort,
      hp, Cap.read, Cap.setPos]
    decide

/-! Claim C6: per-pull behaviour of the lazy generator. -/

/-- C6: on the first pull the generator reads at the backend's current position;
on a later pull it reads the next sequential frame with no seek when the
interval is null, and with a positive configured interval it first advances the
backend position to current position + step. -/
theorem generator_pull_semantics (r : VideoReader) (cap : Cap)
    (hop : cap.opened = true) :
    generatorPull r true cap = cap.read ∧
    (r.interval = none → generatorPull r false cap = cap.read) ∧
    (∀ i : ℚ, r.interval = some i → 0 < i →
      generatorPull r false cap
        = (cap.setPos ((cap.pos : ℤ) + pyInt (i * r.metadata.fps))).read) := by
  refine ⟨?_, ?_, ?_⟩
  · simp [generatorPull, hop]
  · intro h
    simp [generatorPull, h, hop]
  · intro i h _
    simp [generatorPull, h, Cap.setPos, hop]

/-- A reader with interval 2 seconds at 3 fps (step 6). -/
def rSix : VideoReader := ⟨"g.mp4", some 2, 0, ⟨3, 20, 0, 0, 0, 0, 0⟩⟩

/-- A 20-frame capture positioned at frame 5. -/
def capAtFive : Cap := ⟨List.range 20, 5, true⟩

/-- Witness for C6 at a concrete open capture. -/
theorem generator_pull_semantics_witness :
    capAtFive.opened = true ∧
    generatorPull rSix true capAtFive = capAtFive.read ∧
    generatorPull rSix false capAtFive
      = (capAtFive.setPos ((capAtFive.pos : ℤ) + pyInt (2 * 3))).read := by
  have h := generator_pull_semantics rSix capAtFive rfl
  exact ⟨rfl, h.1, h.2.2 2 rfl (by norm_num)⟩

/-! Claim C7: the existence check at construction time. -/

/-- A backend metadata oracle (what cv2 would report). -/
def bmAny : String → VideoMetaData := fun _ => ⟨0, 0, 0, 0, 0, 0, 0⟩

/-- C7 counterexample: video/video_reader.py `VideoReader.__init__` performs no
existence check at all — its model does not even consult a file system — so on a
missing path construction succeeds and the backend metadata fetch is made,
instead of failing with FileNotFound before any backend call. -/
theorem construction_check_counterexample :
    (VideoReader.init bmAny "missing.mp4" (some 1) 0).2 = true ∧
    ((VideoReader.init bmAny "missing.mp4" (some 1) 0).1).path = "missing.mp4" :=
  ⟨rfl, rfl⟩

/-- C7 amended: io/video.py `Video.__init__` fails fast with FileNotFound
before any backend call when the path does not exist, while
video/video_reader.py `VideoReader.__init__` always contacts the backend. -/
theorem construction_check_semantics (fs : String → Bool)
    (bm : String → VideoMetaData) (p : String) (i : Option ℚ) (st : ℚ)
    (h : fs p = false) :
    IoVideo.init fs bm p = (.error .fileNotFound, false) ∧
    (VideoReader.init bm p i st).2 = true := by
  constructor
  · simp [IoVideo.init, h]
  · rfl

/-- Witness for the amended C7 on an empty file system. -/
theorem construction_check_semantics_witness :
    (fun _ : String => false) "missing.mp4" = false ∧
    IoVideo.init (fun _ => false) bmAny "missing.mp4"
      = (.error .fileNotFound, false) ∧
    (VideoReader.init bmAny "missing.mp4" none 0).2 = true :=
  ⟨rfl,
    (construction_check_semantics (fun _ => false) bmAny "missing.mp4" none 0 rfl).1,
    (construction_check_semantics (fun _ => false) bmAny "missing.mp4" none 0 rfl).2⟩

/-! Claim C8: release of the backend handle. -/

/-- A 1-frame, 1-fps reader for the release witness. -/
def rOne : VideoReader := ⟨"w.mp4", some 1, 0, ⟨1, 1, 0, 0, 0, 0, 0⟩⟩

/-- The capture of the release witness. -/
def capOne : Cap := ⟨[5], 0, true⟩

/-- C8: `__exit__` always releases the capture and, returning Python None,
re-raises any pending error; a with-block therefore releases the handle on
every path while surfacing the body's outcome (value or error) unchanged; and
batch extraction releases the capture whenever it completes (on success or on
an early stop). -/
theorem session_release_semantics {α : Type} (r : VideoReader)
    (content : List Frame) (body : VideoReader → Cap → Except CvError α × Cap)
    (cap0 : Cap) (exc : Option CvError)
    (rx : VideoReader) (capx c : Cap) (fsx : List Frame)
    (hex : rx.extract_frames capx = .ok (fsx, c)) :
    (VideoReader.exit cap0 exc).1.opened = false ∧
    (VideoReader.exit cap0 exc).2 = exc ∧
    (withReader r content body).2.opened = false ∧
    (withReader r content body).1 = (body r (r.enter content)).1 ∧
    c.opened = false := by
  refine ⟨rfl, rfl, rfl, rfl, ?_⟩
  simp only [VideoReader.extract_frames] at hex
  cases hst : rx.get_steps with
  | error e => simp [hst] at hex
  | ok steps =>
    simp only [hst] at hex
    cases hr : pyRange 0 rx.metadata.frame_count steps with
    | error e => simp [hr] at hex
    | ok ids =>
      simp only [hr, Except.ok.injEq, Prod.mk.injEq] at hex
      obtain ⟨-, h2⟩ := hex
      rw [← h2]
      rfl

/-- Witness for C8: a concrete session whose body raises, and a concrete
completed batch extraction. -/
theorem session_release_semantics_witness :
    (VideoReader.exit capOne (some CvError.valueError)).1.opened = false ∧
    (VideoReader.exit capOne (some CvError.valueError)).2
      = some CvError.valueError ∧
    (withReader rOne [5]
        (fun _ cap => ((.error .valueError : Except CvError (List Frame)), cap))).2.opened
      = false ∧
    (withReader rOne [5]
        (fun _ cap => ((.error .valueError : Except CvError (List Frame)), cap))).1
      = (((fun (_ : VideoReader) (cap : Cap) =>
            ((.error .valueError : Except CvError (List Frame)), cap))
          rOne (rOne.enter [5]))).1 ∧
    (Cap.mk [5] 1 false).opened = false := by
  have hp : pyInt ((1 : ℚ) * 1) = 1 := by rw [mul_one]; decide
  have hs : rOne.get_steps = .ok 1 := by
    simp only [VideoReader.get_steps, rOne, hp]
  have hex : rOne.extract_frames capOne = .ok ([5], Cap.mk [5] 1 false) := by
    simp only [VideoReader.extract_frames, hs]
    decide
  exact session_release_semantics rOne [5]
    (fun _ cap => ((.error .valueError : Except CvError (List Frame)), cap))
    capOne (some CvError.valueError) rOne capOne (Cap.mk [5] 1 false) [5] hex

/-! Claim C9: saving frames to the output directory. -/

lemma writeLoop_not_written (dir ext : String) (ys : List Frame) :
    ∀ (idx : ℕ) (files : FileName → Option Frame) (q : FileName),
      (∀ i, i < ys.length → q ≠ ⟨dir, idx + i, ext⟩) →
      writeLoop dir ext idx ys files q = files q := by
  induction ys with
  | nil => intro idx files q _; rfl
  | cons f rest ih =>
    intro idx files q h
    rw [writeLoop, ih (idx + 1) _ q (by
      intro i hi
      have h2 := h (i + 1) (by simp only [List.length_cons]; omega)
      rwa [show idx + (i + 1) = idx + 1 + i by omega] at h2)]
    have h0 := h 0 (by simp)
    simp only [Nat.add_zero] at h0
    simp [h0]

lemma writeLoop_written (dir ext : String) (ys : List Frame) :
    ∀ (idx : ℕ) (files : FileName → Option Frame) (i : ℕ) (hi : i < ys.length),
      writeLoop dir ext idx ys files ⟨dir, idx + i, ext⟩
        = some (ys.get ⟨i, hi⟩) := by
  induction ys with
  | nil => intro idx files i hi; exact absurd hi (by simp)
  | cons f rest ih =>
    intro idx files i hi
    cases i with
    | zero =>
      rw [writeLoop, writeLoop_not_written dir ext rest (idx + 1) _
        ⟨dir, idx + 0, ext⟩ (by
          intro j hj heq
          have h2 := congrArg FileName.index heq
          simp at h2
          omega)]
      simp
    | succ i2 =>
      rw [writeLoop, show idx + (i2 + 1) = idx + 1 + i2 by omega]
      exact ih (idx + 1) _ i2 (by simp only [List.length_cons] at hi; omega)

lemma writeLoop_preserves (dir ext : String) (ys : List Frame) :
    ∀ (idx : ℕ) (files : FileName → Option Frame) (q : FileName),
      files q ≠ none → writeLoop dir ext idx ys files q ≠ none := by
  induction ys with
  | nil => intro idx files q h; exact h
  | cons f rest ih =>
    intro idx files q h
    rw [writeLoop]
    apply ih
    by_cases hq : q = ⟨dir, idx, ext⟩
    · simp [hq]
    · simpa [hq] using h

lemma writeLoop_skip (dir fmt : String) (ys : List Frame)
    (files : FileName → Option Frame) (q : FileName)
    (h : q.dir ≠ dir ∨ q.ext ≠ fmt ∨ ys.length ≤ q.index) :
    writeLoop dir fmt 0 ys files q = files q := by
  apply writeLoop_not_written
  intro j hj heq
  subst heq
  simp at h
  omega

lemma goSave_sound (bm : String → VideoMetaData)
    (content : String → List Frame) (interval : Option ℚ) (dir fmt : String)
    (ys : String → List Frame) :
    ∀ (ps : List String) (fs fs2 : FS),
      (∀ p ∈ ps, ∃ c : Cap,
        generatorRun ((VideoReader.init bm p interval 0).1)
          ((content p).length + 1)
          (((VideoReader.init bm p interval 0).1).enter (content p))
          = some (ys p, c)) →
      goSave bm content interval dir fmt ps fs = some fs2 →
      fs2.dirs = fs.dirs ∧
      (∀ q : FileName, fs.files q ≠ none → fs2.files q ≠ none) ∧
      (∀ (pre post : List String) (p : String), ps = pre ++ p :: post →
        ∀ i (hi : i < (ys p).length), (∀ q ∈ post, (ys q).length ≤ i) →
          fs2.files ⟨dir, i, fmt⟩ = some ((ys p).get ⟨i, hi⟩)) ∧
      (∀ q : FileName, (q.dir ≠ dir ∨ q.ext ≠ fmt ∨
          (∀ p ∈ ps, (ys p).length ≤ q.index)) →
        fs2.files q = fs.files q) := by
  intro ps
  induction ps with
  | nil =>
    intro fs fs2 _ hsave
    simp only [goSave] at hsave
    obtain rfl : fs = fs2 := Option.some.inj hsave
    refine ⟨rfl, fun q h => h, ?_, fun q _ => rfl⟩
    intro pre post p hsplit
    exact (List.cons_ne_nil p post (List.append_eq_nil.mp hsplit.symm).2).elim
  | cons p ps ih =>
    intro fs fs2 hruns hsave
    obtain ⟨c, hrp⟩ := hruns p (List.mem_cons_self p ps)
    simp only [goSave, hrp] at hsave
    obtain ⟨hdirs, hpres, hdecomp, hskip⟩ :=
      ih { fs with files := writeLoop dir fmt 0 (ys p) fs.files } fs2
        (fun q hq => hruns q (List.mem_cons_of_mem _ hq)) hsave
    refine ⟨hdirs, ?_, ?_, ?_⟩
    · intro q h
      exact hpres q (writeLoop_preserves dir fmt (ys p) 0 fs.files q h)
    · intro pre post p2 hsplit i hi hpost
      cases pre with
      | nil =>
        simp only [List.nil_append, List.cons.injEq] at hsplit
        obtain ⟨rfl, rfl⟩ := hsplit
        have h1 := hskip ⟨dir, i, fmt⟩ (Or.inr (Or.inr hpost))
        have h2 := writeLoop_written dir fmt (ys p) 0 fs.files i hi
        rw [h1]
        simpa using h2
      | cons p0 pre2 =>
        simp only [List.cons_append, List.cons.injEq] at hsplit
        obtain ⟨rfl, hps⟩ := hsplit
        exact hdecomp pre2 post p2 hps i hi hpost
    · intro q hq
      have h3 : writeLoop dir fmt 0 (ys p) fs.files q = fs.files q := by
        rcases hq with h | h | h
        · exact writeLoop_skip dir fmt (ys p) fs.files q (Or.inl h)
        · exact writeLoop_skip dir fmt (ys p) fs.files q (Or.inr (Or.inl h))
        · exact writeLoop_skip dir fmt (ys p) fs.files q
            (Or.inr (Or.inr (h p (List.mem_cons_self p ps))))
      have h4 : fs2.files q
          = writeLoop dir fmt 0 (ys p) fs.files q := by
        rcases hq with h | h | h
        · exact hskip q (Or.inl h)
        · exact hskip q (Or.inr (Or.inl h))
        · exact hskip q
            (Or.inr (Or.inr (fun r hr => h r (List.mem_cons_of_mem _ hr))))
      rw [h4, h3]

/-- C9: for every output directory and every list of input paths,
`save_frames` creates the output directory (idempotently when it already
exists, never touching files), never deletes a pre-existing file, and writes
the frames pulled from each path to `outputDir/<index>.<imageFormat>` in pull
order with the index starting at 0 and resetting to 0 for each path: for any
decomposition `paths = pre ++ p :: post`, pull number i of path p ends up at
index i whenever no later path writes that index again, and every file name
outside the written ranges is left unchanged. -/
theorem save_frames_semantics (bm : String → VideoMetaData)
    (content : String → List Frame) (interval : Option ℚ) (dir fmt : String)
    (v : Video) (fs fs2 : FS) (ys : String → List Frame)
    (hruns : ∀ p ∈ v.paths, ∃ c : Cap,
      generatorRun ((VideoReader.init bm p interval 0).1)
        ((content p).length + 1)
        (((VideoReader.init bm p interval 0).1).enter (content p))
        = some (ys p, c))
    (hsave : v.save_frames bm content dir interval fmt fs = some fs2) :
    dir ∈ fs2.dirs ∧
    (dir ∈ fs.dirs → fs2.dirs = fs.dirs) ∧
    (∀ q : FileName, fs.files q ≠ none → fs2.files q ≠ none) ∧
    (∀ (pre post : List String) (p : String), v.paths = pre ++ p :: post →
      ∀ i (hi : i < (ys p).length), (∀ q ∈ post, (ys q).length ≤ i) →
        fs2.files ⟨dir, i, fmt⟩ = some ((ys p).get ⟨i, hi⟩)) ∧
    (∀ q : FileName, (q.dir ≠ dir ∨ q.ext ≠ fmt ∨
        (∀ p ∈ v.paths, (ys p).length ≤ q.index)) →
      fs2.files q = fs.files q) := by
  unfold Video.save_frames at hsave
  obtain ⟨hdirs, hpres, hdecomp, hskip⟩ :=
    goSave_sound bm content interval dir fmt ys v.paths (fs.mkdirAll dir) fs2
      hruns hsave
  refine ⟨?_, ?_, ?_, hdecomp, ?_⟩
  · rw [hdirs]
    simp only [FS.mkdirAll]
    by_cases hd : dir ∈ fs.dirs <;> simp [hd]
  · intro hd
    rw [hdirs]
    simp [FS.mkdirAll, hd]
  · intro q h
    exact hpres q h
  · intro q hq
    exact hskip q hq

/-- The backend metadata oracle of the save-frames witness. -/
def bmW : String → VideoMetaData := fun _ => ⟨1, 10, 0, 0, 0, 0, 0⟩

/-- Two small videos: path "a" holds frames 4, 5 and any other path frame 9. -/
def contentW : String → List Frame := fun p => if p = "a" then [4, 5] else [9]

/-- The two-path collection of the witness. -/
def vW : Video := Video.mk' (.many ["a", "b"])

/-- The initially empty file system of the witness. -/
def fsW : FS := ⟨[], fun _ => none⟩

/-- The file system produced by the witness run. -/
def fsW2 : FS := FS.mk
  (if "out" ∈ fsW.dirs then fsW.dirs else "out" :: fsW.dirs)
  (writeLoop "out" "png" 0 [9] (writeLoop "out" "png" 0 [4, 5] fsW.files))

/-- Witness for C9: saving the two videos with a null interval writes 9 to
out/0.png (second path, index reset to 0) and 5 to out/1.png (first path,
surviving because the second video has only one frame). -/
theorem save_frames_semantics_witness :
    "out" ∈ fsW2.dirs ∧
    fsW2.files ⟨"out", 0, "png"⟩ = some 9 ∧
    fsW2.files ⟨"out", 1, "png"⟩ = some 5 := by
  have h := save_frames_semantics bmW contentW none "out" "png" vW fsW fsW2
    contentW
    (by
      intro p hp
      simp [vW, Video.mk'] at hp
      rcases hp with rfl | rfl
      · exact ⟨Cap.mk [4, 5] 2 true, by decide⟩
      · exact ⟨Cap.mk [9] 1 true, by decide⟩)
    rfl
  refine ⟨h.1, ?_, ?_⟩
  · exact h.2.2.2.1 ["a"] [] "b" rfl 0 (by decide) (by simp)
  · exact h.2.2.2.1 [] ["b"] "a" rfl 1 (by decide) (by decide)

/-! Claim C10: normalization of the constructor argument. -/

/-- C10: the collection-level constructor wraps a single path into a one-element
list, so the `paths` attribute is always a list, and both `save_frames` and
`extract_frames` behave identically for a single path `p` and for `[p]`. -/
theorem paths_normalization (p : String) (bm : String → VideoMetaData)
    (content : String → List Frame) (interval : Option ℚ) (dir fmt : String)
    (fs : FS) :
    (Video.mk' (.one p)).paths = [p] ∧
    Video.mk' (.one p) = Video.mk' (.many [p]) ∧
    Video.save_frames (Video.mk' (.one p)) bm content dir interval fmt fs
      = Video.save_frames (Video.mk' (.many [p])) bm content dir interval fmt fs ∧
    Video.extract_frames (Video.mk' (.one p)) bm content interval
      = Video.extract_frames (Video.mk' (.many [p])) bm content interval :=
  ⟨rfl, rfl, rfl, rfl⟩

end CVision
